import Mathlib

/-!
Verification of the Metric Normalization & Storage-Routing Engine
(src/server/src/controllers/metrics.ts) against its specification.

The controller is embedded shallowly:
- a stored document is an `Entity` (mandatory `source` and `date` keys plus a
  flat field map, matching the persisted-state layout of the spec);
- a MongoDB database is a `DB`, an association list from collection name to
  the list of documents in that collection (a collection that was never
  written is simply absent, which is how MongoDB lazily creates collections);
- `updateOne` with `filter = (source, date)`, `update = set`, `upsert = true`
  (the operation built in `saveMetrics`, lines 146-194 of the controller) is
  `upsertOne`; the MongoDB `set` update operator writes every top-level field
  of the update document onto the matched document and leaves the remaining
  stored fields untouched, which `applySet` reproduces;
- the JavaScript string operations used by the controller
  (`String.prototype.split`, `trim`, `startsWith`, `Array.prototype.sort`
  with the default lexicographic comparator) are embedded as structurally
  recursive functions over `List Char` so that they evaluate inside the
  kernel: `jsSplit`, `jsTrim`, `jsStartsWith`, `sortStrings`;
- `Model.find(query).lean()` is `modelFind`: the documents of the resolved
  collection filtered by the query predicate; `Model.distinct` is
  `distinctSource`; `db.listCollections()` is the key list of `DB`;
- the awaited storage operations of `saveMetrics` can reject (backing medium
  unavailable); this is injected through the `storageFail` argument, `none`
  meaning every write succeeds and `some msg` meaning the joined write
  promise rejects with message `msg`, which the surrounding try/catch turns
  into the error response;
- files referenced by the controller but not present in the source tree
  (models/Metric.ts with `mapMetric`, models/MetricName.ts, utils.ts with
  `parseDate`) are modelled from the specification; each such definition is
  marked `Modelled from the spec:` in its doc comment.

The `include`/`exclude` field projection (`filterFields`, utils.ts) is applied
after the query returns and is independent of every property verified here;
it is left out of the embedding.
-/

/-! ### JavaScript string primitives, embedded over `List Char` -/

/-- Whitespace test used by the embedded `trim`. -/
def isWs (c : Char) : Bool := c.isWhitespace

/-- Split a character list on a separator character; JavaScript
`String.prototype.split` semantics (an empty string yields one empty group,
a trailing separator yields a trailing empty group). -/
def splitChar (sep : Char) : List Char → List (List Char)
  | [] => [[]]
  | c :: rest =>
    let r := splitChar sep rest
    if c = sep then [] :: r
    else
      match r with
      | [] => [[c]]
      | g :: gs => (c :: g) :: gs

/-- JavaScript `String.prototype.split` with a one-character separator. -/
def jsSplit (s : String) (sep : Char) : List String :=
  (splitChar sep s.data).map String.mk

/-- Remove leading and trailing whitespace from a character list. -/
def trimChars (l : List Char) : List Char :=
  ((l.dropWhile isWs).reverse.dropWhile isWs).reverse

/-- JavaScript `String.prototype.trim`. -/
def jsTrim (s : String) : String := String.mk (trimChars s.data)

/-- Boolean list-prefix test on character lists. -/
def isPrefixOfChars : List Char → List Char → Bool
  | [], _ => true
  | _ :: _, [] => false
  | a :: as, b :: bs => a = b && isPrefixOfChars as bs

/-- JavaScript `String.prototype.startsWith`. -/
def jsStartsWith (s pfx : String) : Bool := isPrefixOfChars pfx.data s.data

/-- Lexicographic comparison of character lists by code point, the order
JavaScript `Array.prototype.sort` uses for strings under the default
comparator. -/
def charListLe : List Char → List Char → Bool
  | [], _ => true
  | _ :: _, [] => false
  | a :: as, b :: bs =>
    if a.val.toNat < b.val.toNat then true
    else if b.val.toNat < a.val.toNat then false
    else charListLe as bs

/-- Lexicographic string comparison (JavaScript default sort order). -/
def strLe (a b : String) : Bool := charListLe a.data b.data

/-- JavaScript `Array.prototype.sort()` on an array of strings: a stable sort
by the default lexicographic comparator. -/
def sortStrings (l : List String) : List String :=
  l.insertionSort (fun a b => strLe a b = true)

/-! ### Data model -/

/-- A canonical stored metric entity (`BaseMetric` and its variants): the
mandatory natural-key fields `source` and `date` plus the remaining
type-specific fields, kept as a flat field map. Field values are embedded as
integers; every property verified here is independent of the value type. -/
structure Entity where
  source : String
  date : Int
  fields : List (String × Int)
deriving DecidableEq, Repr

/-- Look a key up in a field map (first binding wins). -/
def fieldGet (l : List (String × Int)) (k : String) : Option Int :=
  (l.find? (fun p => p.1 == k)).map (fun p => p.2)

/-- Modelled from the spec: the statically known metric-type identifier bound
to `HeartRateModel` (models/MetricName.ts is not under src/; the spec names
the statically known stores HeartRate, Sleep, BloodPressure). -/
def MetricName.HEART_RATE : String := "HeartRate"

/-- Modelled from the spec: the statically known metric-type identifier bound
to `SleepModel`. -/
def MetricName.SLEEP_ANALYSIS : String := "SleepAnalysis"

/-- Modelled from the spec: the statically known metric-type identifier bound
to `BloodPressureModel`. -/
def MetricName.BLOOD_PRESSURE : String := "BloodPressure"

/-- The MongoDB database: one collection of documents per collection name.
A metric type that was never written has no entry, matching the lazy
creation of collections on first write. -/
structure DB where
  collections : List (String × List Entity)
deriving DecidableEq, Repr

/-- The documents of a named collection; a collection that does not exist
reads as empty (a `find` against it returns no documents). -/
def DB.getCollection (db : DB) (name : String) : List Entity :=
  match db.collections.find? (fun p => p.1 == name) with
  | some p => p.2
  | none => []

/-- Helper for `DB.setCollection` on the underlying association list. -/
def DB.setCollectionAux : List (String × List Entity) → String → List Entity → List (String × List Entity)
  | [], name, c => [(name, c)]
  | p :: rest, name, c =>
    if p.1 == name then (name, c) :: rest
    else p :: DB.setCollectionAux rest name c

/-- Replace (or lazily create) a named collection. -/
def DB.setCollection (db : DB) (name : String) (c : List Entity) : DB :=
  { collections := DB.setCollectionAux db.collections name c }

/-- Well-formedness of a database: collection names are unique, as MongoDB
guarantees. -/
abbrev DB.wf (db : DB) : Prop := (db.collections.map Prod.fst).Nodup

/-! ### Upsert writer (MongoDB `updateOne` with `set` and `upsert: true`) -/

/-- The `updateOne` filter `{ source: metric.source, date: metric.date }`. -/
def keyMatches (s : String) (d : Int) (e : Entity) : Bool :=
  e.source == s && e.date == d

/-- The MongoDB `set` update operator applied to a matched stored document:
every top-level field of the update document (here the whole incoming
entity, `update: { $set: metric }`) is written; stored fields that the
incoming entity does not carry are left untouched. -/
def applySet (stored incoming : Entity) : Entity :=
  { source := incoming.source
    date := incoming.date
    fields :=
      incoming.fields ++
        stored.fields.filter (fun p => !(incoming.fields.any (fun q => q.1 == p.1))) }

/-- One `updateOne` with `upsert: true`: update the first document matching
the (source, date) filter with `set`, or insert the incoming entity if no
document matches. -/
def upsertOne : List Entity → Entity → List Entity
  | [], m => [m]
  | e :: rest, m =>
    if keyMatches m.source m.date e then applySet e m :: rest
    else e :: upsertOne rest m

/-- `Model.bulkWrite` of the per-entity upserts built in `saveMetrics`
(ordered, as MongoDB defaults to). -/
def bulkWrite (store : List Entity) (ms : List Entity) : List Entity :=
  ms.foldl upsertOne store

/-- Number of documents of a store carrying a given (source, date) key. -/
def countKey (store : List Entity) (s : String) (d : Int) : Nat :=
  (store.filter (keyMatches s d)).length

/-- First document of a store carrying a given (source, date) key. -/
def findKey (store : List Entity) (s : String) (d : Int) : Option Entity :=
  store.find? (keyMatches s d)

/-- Boolean check that an entity's key clashes with no entity of a list. -/
def noKeyClash (e : Entity) (l : List Entity) : Bool :=
  l.all (fun b => !(e.source == b.source && e.date == b.date))

/-- Boolean check of the per-store invariant that no two documents share a
(source, date) key. -/
def uniqueKeysB : List Entity → Bool
  | [] => true
  | e :: rest => noKeyClash e rest && uniqueKeysB rest

/-- The per-store invariant: no two documents share a (source, date) key. -/
abbrev uniqueKeys (store : List Entity) : Prop := uniqueKeysB store = true

/-! ### Query engine (`getMetrics`, controller lines 57-117) -/

/-- The source condition placed in the query: the controller uses an exact
match for a single source and a set-membership match for several. -/
inductive SourceCond where
  | exact (s : String)
  | inList (ss : List String)
deriving DecidableEq, Repr

/-- The query object built by `getMetrics`: an optional inclusive date range
and an optional source condition. -/
structure MetricQuery where
  dateRange : Option (Int × Int)
  sourceCond : Option SourceCond
deriving DecidableEq, Repr

/-- Controller lines 71-76: the date filter is added only when both `from`
and `to` parsed successfully; otherwise the query carries no date bound.
`parseDate` (utils.ts) is not under src/ and is modelled from the spec as an
option-valued parse whose `some` case is a successful parse. -/
def buildDateFilter (fromDate toDate : Option Int) : Option (Int × Int) :=
  match fromDate, toDate with
  | some f, some t => some (f, t)
  | _, _ => none

/-- Controller lines 80-83, the local `sources`: split the parameter on
commas, trim each entry, and keep the entries that are non-empty and not the
`$__all` sentinel. -/
def parsedSources (s : String) : List String :=
  ((jsSplit s ',').map jsTrim).filter (fun t => !(t == "") && !(t == "$__all"))

/-- Controller lines 79-89: no source condition when the parameter is absent,
empty (falsy), or one of the whole-value sentinels; otherwise an exact match
for a single remaining entry and a set-membership match for several; no
condition either when no entry remains. -/
def parseSourceParam : Option String → Option SourceCond
  | none => none
  | some s =>
    if s = "" ∨ s = "$__all" ∨ s = "All" then none
    else
      match parsedSources s with
      | [] => none
      | [t] => some (SourceCond.exact t)
      | t :: ts => some (SourceCond.inList (t :: ts))

/-- Whether a stored document satisfies the date part of a query
(`$gte`/`$lte`, both inclusive). -/
def dateMatches (range : Option (Int × Int)) (e : Entity) : Bool :=
  match range with
  | none => true
  | some (f, t) => decide (f ≤ e.date) && decide (e.date ≤ t)

/-- Whether a stored document satisfies the source part of a query. -/
def sourceMatches (cond : Option SourceCond) (e : Entity) : Bool :=
  match cond with
  | none => true
  | some (SourceCond.exact s) => e.source == s
  | some (SourceCond.inList ss) => ss.contains e.source

/-- Whether a stored document satisfies a whole query. -/
def queryMatches (q : MetricQuery) (e : Entity) : Bool :=
  dateMatches q.dateRange e && sourceMatches q.sourceCond e

/-- `Model.find(query).lean()`: the documents of the model's collection that
satisfy the query. -/
def modelFind (db : DB) (name : String) (q : MetricQuery) : List Entity :=
  (db.getCollection name).filter (queryMatches q)

/-- Controller lines 57-117, the successful path of `getMetrics`: reject a
falsy selected metric, build the query from the `from`/`to` parse results
and the `source` parameter, then route to the statically bound model for the
three known types and to `createMetricModel(selectedMetric)` otherwise.
`from` and `to` are passed as their `parseDate` results (see
`buildDateFilter`). -/
def getMetrics (db : DB) (selectedMetric : String) (fromDate toDate : Option Int)
    (sourceParam : Option String) : Except String (List Entity) :=
  if selectedMetric = "" then Except.error "No metric selected"
  else
    let q : MetricQuery :=
      { dateRange := buildDateFilter fromDate toDate
        sourceCond := parseSourceParam sourceParam }
    if selectedMetric = MetricName.BLOOD_PRESSURE then
      Except.ok (modelFind db MetricName.BLOOD_PRESSURE q)
    else if selectedMetric = MetricName.HEART_RATE then
      Except.ok (modelFind db MetricName.HEART_RATE q)
    else if selectedMetric = MetricName.SLEEP_ANALYSIS then
      Except.ok (modelFind db MetricName.SLEEP_ANALYSIS q)
    else
      Except.ok (modelFind db selectedMetric q)

/-- The discard rule exactly as the specification's sentence states it for
the source parameter: split on commas, trim each entry, and discard the
empty and whitespace-only entries (and nothing else). Kept separate from the
controller's `parsedSources` so the two can be compared. -/
def specDiscardRule (s : String) : List String :=
  ((jsSplit s ',').map jsTrim).filter (fun t => !(t == ""))

/-! ### Discovery service (`getSources`, `getAvailableMetrics`) -/

/-- `Model.distinct` over the `source` field: the deduplicated source values
of a collection. -/
def distinctSource (c : List Entity) : List String :=
  (c.map Entity.source).dedup

/-- Controller lines 38-55, the successful path of `getSources`: the distinct
sources of the three statically known models, combined, deduplicated through
a set, and sorted. -/
def getSources (db : DB) : List String :=
  sortStrings
    ((distinctSource (db.getCollection MetricName.HEART_RATE) ++
      distinctSource (db.getCollection MetricName.SLEEP_ANALYSIS) ++
      distinctSource (db.getCollection MetricName.BLOOD_PRESSURE)).dedup)

/-- Controller lines 20-36, the successful path of `getAvailableMetrics`:
the names of the existing collections, with the `system.` collections
filtered out, sorted. -/
def getAvailableMetrics (db : DB) : List String :=
  sortStrings ((db.collections.map Prod.fst).filter (fun n => !(jsStartsWith n "system.")))

/-! ### Ingestion (`saveMetrics`, controller lines 119-215) -/

/-- Modelled from the spec: one raw sample inside a raw ingestion record;
`source` or `date` may be missing, in which case the mapper drops the
sample. -/
structure Sample where
  source : Option String
  date : Option Int
  fields : List (String × Int)
deriving DecidableEq, Repr

/-- A raw ingestion record: a metric-type `name` plus its samples. -/
structure HealthMetric where
  name : String
  samples : List Sample
deriving DecidableEq, Repr

/-- The `data` payload of an ingestion call; `metrics` may be absent. -/
structure HealthData where
  metrics : Option (List HealthMetric)
deriving DecidableEq, Repr

/-- The argument of `saveMetrics` (models/IngestData.ts). -/
structure IngestData where
  data : HealthData
deriving DecidableEq, Repr

/-- The per-section result inside an `IngestResponse`. -/
structure MetricsResult where
  success : Bool
  message : Option String
  error : Option String
deriving DecidableEq, Repr

/-- The result of `saveMetrics` (models/IngestResponse.ts). -/
structure IngestResponse where
  metrics : Option MetricsResult
deriving DecidableEq, Repr

/-- Modelled from the spec: `mapMetric` (models/Metric.ts is not under src/)
transforms one raw ingestion record into zero or more canonical entities,
one per sample, carrying the sample's fields; a sample missing `source` or
`date` is dropped rather than raising an error. -/
def mapMetric (m : HealthMetric) : List Entity :=
  m.samples.filterMap (fun s =>
    match s.source, s.date with
    | some src, some d => some { source := src, date := d, fields := s.fields }
    | _, _ => none)

/-- One step of the `reduce` on controller lines 133-144: push the mapped
entities of a record onto the group of its `name`. -/
def addToGroup : List (String × List Entity) → String → List Entity → List (String × List Entity)
  | [], k, ms => [(k, ms)]
  | (k', v) :: rest, k, ms =>
    if k' == k then (k', v ++ ms) :: rest
    else (k', v) :: addToGroup rest k ms

/-- Controller lines 133-144, `metricsByType`: group the mapped entities of
the batch by record name. -/
def groupByType (records : List HealthMetric) : List (String × List Entity) :=
  records.foldl (fun acc m => addToGroup acc m.name (mapMetric m)) []

/-- The early-return result for an absent or empty batch
(controller lines 124-130). -/
def noDataResult : MetricsResult :=
  { success := true, message := none, error := some "No metrics data provided" }

/-- Controller lines 119-215, `saveMetrics`: return the no-data result for an
absent or empty batch without touching the database; otherwise group the
batch by type and issue one bulk upsert per type. `storageFail` injects the
behaviour of the awaited storage operations: `some msg` means the joined
write promise rejects with message `msg` (for a rejection that is not an
`Error`, `msg` is the fallback text "Error saving metrics"), which the
try/catch converts into the combined error response; `none` means every
write succeeds, yielding the success response whose count is the length of
the raw `metricsData` array. -/
def saveMetrics (ingestData : IngestData) (db : DB) (storageFail : Option String) :
    IngestResponse × DB :=
  match ingestData.data.metrics with
  | none => ({ metrics := some noDataResult }, db)
  | some [] => ({ metrics := some noDataResult }, db)
  | some (m :: rest) =>
    match storageFail with
    | some msg =>
      ({ metrics := some { success := false, message := none, error := some msg } }, db)
    | none =>
      let groups := groupByType (m :: rest)
      let db2 := groups.foldl
        (fun d kv => d.setCollection kv.1 (bulkWrite (d.getCollection kv.1) kv.2)) db
      ({ metrics := some
          { success := true
            message := some (toString (m :: rest).length ++ " metrics saved successfully")
            error := none } }, db2)

/-! ### Basic lemmas on the upsert writer -/

theorem keyMatches_iff (s : String) (d : Int) (e : Entity) :
    keyMatches s d e = true ↔ (e.source = s ∧ e.date = d) := by
  simp [keyMatches]

theorem keyMatches_applySet (e m : Entity) :
    keyMatches m.source m.date (applySet e m) = true := by
  simp [keyMatches, applySet]

theorem countKey_cons (e : Entity) (rest : List Entity) (s : String) (d : Int) :
    countKey (e :: rest) s d =
      (if keyMatches s d e then 1 else 0) + countKey rest s d := by
  simp only [countKey, List.filter_cons]
  split
  · simp [Nat.add_comm]
  · simp

theorem countKey_eq_zero_iff (l : List Entity) (s : String) (d : Int) :
    countKey l s d = 0 ↔ ∀ b ∈ l, keyMatches s d b = false := by
  simp only [countKey, List.length_eq_zero, List.filter_eq_nil_iff]
  constructor
  · intro h b hb
    exact Bool.eq_false_iff.mpr (fun hx => h b hb hx)
  · intro h b hb hx
    rw [h b hb] at hx
    exact Bool.false_ne_true hx

theorem noKeyClash_spec (e : Entity) (l : List Entity) :
    noKeyClash e l = true ↔ ∀ b ∈ l, ¬(e.source = b.source ∧ e.date = b.date) := by
  simp only [noKeyClash, List.all_eq_true, Bool.not_eq_true', Bool.and_eq_false_iff,
    beq_eq_false_iff_ne, ne_eq]
  constructor
  · intro h b hb hcon
    rcases h b hb with hx | hx
    · exact hx hcon.1
    · exact hx hcon.2
  · intro h b hb
    by_cases hs : e.source = b.source
    · exact Or.inr (fun hd => h b hb ⟨hs, hd⟩)
    · exact Or.inl hs

theorem upsertOne_countKey (store : List Entity) (m : Entity) (h : uniqueKeys store) :
    countKey (upsertOne store m) m.source m.date = 1 := by
  induction store with
  | nil =>
    simp [upsertOne, countKey, keyMatches]
  | cons e rest ih =>
    have h2 : (noKeyClash e rest && uniqueKeysB rest) = true := h
    rw [Bool.and_eq_true] at h2
    obtain ⟨hclash, hrest⟩ := h2
    by_cases hk : keyMatches m.source m.date e = true
    · rw [show upsertOne (e :: rest) m = applySet e m :: rest by
        simp [upsertOne, hk]]
      rw [countKey_cons, if_pos (keyMatches_applySet e m)]
      have hzero : countKey rest m.source m.date = 0 := by
        rw [countKey_eq_zero_iff]
        intro b hb
        obtain ⟨hes, hed⟩ := (keyMatches_iff _ _ _).mp hk
        have hb' := (noKeyClash_spec e rest).mp hclash b hb
        rw [Bool.eq_false_iff]
        intro hbk
        obtain ⟨hbs, hbd⟩ := (keyMatches_iff _ _ _).mp hbk
        exact hb' ⟨by rw [hes, hbs], by rw [hed, hbd]⟩
      rw [hzero]
    · rw [show upsertOne (e :: rest) m = e :: upsertOne rest m by
        simp [upsertOne, hk]]
      rw [countKey_cons, if_neg hk, ih hrest]

theorem upsertOne_insert (store : List Entity) (m : Entity)
    (h : findKey store m.source m.date = none) :
    upsertOne store m = store ++ [m] := by
  induction store with
  | nil => rfl
  | cons e rest ih =>
    rw [findKey, List.find?_cons] at h
    by_cases hk : keyMatches m.source m.date e = true
    · rw [hk] at h
      exact absurd h (by simp)
    · rw [Bool.eq_false_iff.mpr hk] at h
      rw [show upsertOne (e :: rest) m = e :: upsertOne rest m by simp [upsertOne, hk]]
      rw [ih h]
      rfl

theorem upsertOne_update (store : List Entity) (m e : Entity)
    (h : findKey store m.source m.date = some e) :
    findKey (upsertOne store m) m.source m.date = some (applySet e m) := by
  induction store with
  | nil => exact absurd h (by simp [findKey])
  | cons x rest ih =>
    rw [findKey, List.find?_cons] at h
    by_cases hk : keyMatches m.source m.date x = true
    · rw [hk] at h
      simp only [Option.some.injEq] at h
      subst h
      rw [show upsertOne (x :: rest) m = applySet x m :: rest by simp [upsertOne, hk]]
      rw [findKey, List.find?_cons, keyMatches_applySet]
    · rw [Bool.eq_false_iff.mpr hk] at h
      rw [show upsertOne (x :: rest) m = x :: upsertOne rest m by simp [upsertOne, hk]]
      rw [findKey, List.find?_cons, Bool.eq_false_iff.mpr hk]
      exact ih h

theorem find?_key_filter (l : List (String × Int)) (k : String) (q : String × Int → Bool)
    (hq : ∀ p : String × Int, p.1 = k → q p = true) :
    (l.filter q).find? (fun p => p.1 == k) = l.find? (fun p => p.1 == k) := by
  induction l with
  | nil => rfl
  | cons a l ih =>
    by_cases hak : a.1 = k
    · rw [List.filter_cons, hq a hak]
      simp only [if_true, List.find?_cons]
      rw [show (a.1 == k) = true by simp [hak]]
    · by_cases hqa : q a = true
      · rw [List.filter_cons, hqa]
        simp only [if_true, List.find?_cons]
        rw [show (a.1 == k) = false by simp [hak]]
        exact ih
      · rw [List.filter_cons, Bool.eq_false_iff.mpr hqa]
        simp only [Bool.false_eq_true, if_false, List.find?_cons]
        rw [show (a.1 == k) = false by simp [hak]]
        exact ih

theorem fieldGet_applySet (stored incoming : Entity) (k : String) :
    fieldGet (applySet stored incoming).fields k =
      (fieldGet incoming.fields k).or (fieldGet stored.fields k) := by
  show fieldGet (incoming.fields ++
      stored.fields.filter (fun p => !(incoming.fields.any (fun q => q.1 == p.1)))) k = _
  rw [fieldGet, List.find?_append]
  cases hfind : incoming.fields.find? (fun p => p.1 == k) with
  | some p =>
    simp [fieldGet, hfind, Option.or]
  | none =>
    have hnok : ∀ q ∈ incoming.fields, ¬(q.1 == k) = true := by
      simpa using List.find?_eq_none.mp hfind
    have hfilter :
        (stored.fields.filter (fun p => !(incoming.fields.any (fun q => q.1 == p.1)))).find?
            (fun p => p.1 == k) =
          stored.fields.find? (fun p => p.1 == k) := by
      apply find?_key_filter
      intro p hpk
      rw [Bool.not_eq_true']
      rw [List.any_eq_false]
      intro q hq
      rw [hpk]
      exact fun hx => hnok q hq hx
    rw [hfilter, fieldGet, fieldGet, hfind]
    simp [Option.none_or]

/-! ### C1: upsert semantics of the writer -/

/-- C1 counterexample: the upsert built by `saveMetrics` uses the MongoDB
`set` update operator, which merges at field level. Writing an incoming
entity that lacks the stored field "b" does not produce the incoming entity
alone (the full-overwrite outcome the claim states): the stored binding
("b", 2) survives next to the overwritten ("a", 3). -/
theorem upsert_full_overwrite_counterexample :
    upsertOne [{ source := "A", date := 0, fields := [("a", 1), ("b", 2)] }]
        { source := "A", date := 0, fields := [("a", 3)] } =
      [{ source := "A", date := 0, fields := [("a", 3), ("b", 2)] }] ∧
    upsertOne [{ source := "A", date := 0, fields := [("a", 1), ("b", 2)] }]
        { source := "A", date := 0, fields := [("a", 3)] } ≠
      [{ source := "A", date := 0, fields := [("a", 3)] }] := by
  decide

/-- C1 (amended): on a store satisfying the per-store key-uniqueness
invariant, one upsert leaves exactly one entity at the incoming (source,
date) key; if no entity matched the key, the incoming entity is inserted
unchanged at the end of the store; if one matched, it is updated with `set`
semantics: every field carried by the incoming entity wins, and stored
fields the incoming entity does not carry are retained (field-level merge,
not full overwrite). -/
theorem upsert_set_semantics (store : List Entity) (m : Entity) (h : uniqueKeys store) :
    countKey (upsertOne store m) m.source m.date = 1 ∧
    (findKey store m.source m.date = none → upsertOne store m = store ++ [m]) ∧
    (∀ e, findKey store m.source m.date = some e →
      findKey (upsertOne store m) m.source m.date = some (applySet e m) ∧
      ∀ k, fieldGet (applySet e m).fields k =
        (fieldGet m.fields k).or (fieldGet e.fields k)) :=
  ⟨upsertOne_countKey store m h,
   upsertOne_insert store m,
   fun e he => ⟨upsertOne_update store m e he, fun k => fieldGet_applySet e m k⟩⟩

/-- Witness for `upsert_set_semantics`: a concrete one-entity store satisfying
the key-uniqueness invariant, on which the upsert leaves exactly one entity
at the key ("A", 0). -/
theorem upsert_set_semantics_witness :
    uniqueKeys [{ source := "A", date := 0, fields := [("a", 1), ("b", 2)] }] ∧
    countKey (upsertOne [{ source := "A", date := 0, fields := [("a", 1), ("b", 2)] }]
        { source := "A", date := 0, fields := [("a", 3)] }) "A" 0 = 1 :=
  ⟨by decide,
   (upsert_set_semantics [{ source := "A", date := 0, fields := [("a", 1), ("b", 2)] }]
      { source := "A", date := 0, fields := [("a", 3)] } (by decide)).1⟩

/-! ### C4, C6, C10: ingestion responses -/

/-- C4: an ingestion whose metrics data is absent or an empty list yields the
distinguishable no-data outcome — success flag true together with the
description "No metrics data provided" — and leaves the database untouched,
regardless of the state of the storage layer. -/
theorem saveMetrics_no_data (db : DB) (storageFail : Option String) :
    saveMetrics { data := { metrics := none } } db storageFail =
      ({ metrics := some { success := true, message := none, error := some "No metrics data provided" } }, db) ∧
    saveMetrics { data := { metrics := some [] } } db storageFail =
      ({ metrics := some { success := true, message := none, error := some "No metrics data provided" } }, db) :=
  ⟨rfl, rfl⟩

/-- C6: `saveMetrics` never propagates a fault. When a storage operation
fails on a non-empty batch, the call returns the single combined error
response — success false with the rejection's message as the error
description — and on every input the call returns a result object carrying a
message or an error description. -/
theorem saveMetrics_storage_failure (ingestData : IngestData) (db : DB) (msg : String) :
    (∀ m rest, ingestData.data.metrics = some (m :: rest) →
      (saveMetrics ingestData db (some msg)).1 =
        { metrics := some { success := false, message := none, error := some msg } }) ∧
    (∀ storageFail : Option String, ∃ r : MetricsResult,
      (saveMetrics ingestData db storageFail).1.metrics = some r ∧
      (r.message.isSome = true ∨ r.error.isSome = true)) := by
  obtain ⟨⟨md⟩⟩ := ingestData
  constructor
  · intro m rest hm
    cases hm
    rfl
  · intro storageFail
    cases md with
    | none => exact ⟨noDataResult, rfl, Or.inr rfl⟩
    | some l =>
      cases l with
      | nil => exact ⟨noDataResult, rfl, Or.inr rfl⟩
      | cons m rest =>
        cases storageFail with
        | none =>
          exact ⟨{ success := true, message := some (toString (m :: rest).length ++ " metrics saved successfully"), error := none }, rfl, Or.inl rfl⟩
        | some s =>
          exact ⟨{ success := false, message := none, error := some s }, rfl, Or.inr rfl⟩

/-- Witness for `saveMetrics_storage_failure`: a concrete one-record batch on
which a storage rejection with message "boom" yields the combined error
response. -/
theorem saveMetrics_storage_failure_witness :
    (saveMetrics { data := { metrics := some [{ name := "HeartRate", samples := [{ source := some "W", date := some 1, fields := [("bpm", 60)] }] }] } } { collections := [] } (some "boom")).1 =
      { metrics := some { success := false, message := none, error := some "boom" } } :=
  (saveMetrics_storage_failure
      { data := { metrics := some [{ name := "HeartRate", samples := [{ source := some "W", date := some 1, fields := [("bpm", 60)] }] }] } }
      { collections := [] } "boom").1
    { name := "HeartRate", samples := [{ source := some "W", date := some 1, fields := [("bpm", 60)] }] } [] rfl

/-- C10: on a fully successful ingestion the count in the success message is
the length of the raw `metricsData` array, and a batch whose mapping
produces a different number of canonical entities (here one record carrying
two samples) still reports the raw record count. -/
theorem saveMetrics_success_counts_raw_records (db : DB) (m : HealthMetric)
    (rest : List HealthMetric) :
    (saveMetrics { data := { metrics := some (m :: rest) } } db none).1 =
      { metrics := some { success := true, message := some (toString (m :: rest).length ++ " metrics saved successfully"), error := none } } ∧
    (∃ batch : List HealthMetric,
      (batch.map (fun r => (mapMetric r).length)).sum ≠ batch.length ∧
      (saveMetrics { data := { metrics := some batch } } db none).1 =
        { metrics := some { success := true, message := some (toString batch.length ++ " metrics saved successfully"), error := none } }) := by
  refine ⟨rfl, ⟨[{ name := "HeartRate", samples := [{ source := some "W", date := some 1, fields := [("bpm", 60)] }, { source := some "W", date := some 2, fields := [("bpm", 61)] }] }], ?_, rfl⟩⟩
  decide

/-! ### Query engine lemmas -/

theorem getMetrics_eq_find (db : DB) (sel : String) (fromDate toDate : Option Int)
    (src : Option String) (hsel : sel ≠ "") :
    getMetrics db sel fromDate toDate src =
      Except.ok ((db.getCollection sel).filter
        (queryMatches { dateRange := buildDateFilter fromDate toDate,
                        sourceCond := parseSourceParam src })) := by
  simp only [getMetrics, modelFind]
  rw [if_neg hsel]
  by_cases h1 : sel = MetricName.BLOOD_PRESSURE
  · rw [if_pos h1, h1]
  · rw [if_neg h1]
    by_cases h2 : sel = MetricName.HEART_RATE
    · rw [if_pos h2, h2]
    · rw [if_neg h2]
      by_cases h3 : sel = MetricName.SLEEP_ANALYSIS
      · rw [if_pos h3, h3]
      · rw [if_neg h3]

/-- C2: the date filter of `getMetrics` is all-or-nothing. When both `from`
and `to` parse, the result is the resolved collection restricted to the
inclusive range [from, to] (and the source condition); when either is absent
or fails to parse, no date restriction at all is applied. -/
theorem getMetrics_date_all_or_nothing (db : DB) (sel : String)
    (fromDate toDate : Option Int) (src : Option String) (hsel : sel ≠ "") :
    (∀ f t, fromDate = some f → toDate = some t →
      getMetrics db sel fromDate toDate src =
        Except.ok ((db.getCollection sel).filter
          (fun e => (decide (f ≤ e.date) && decide (e.date ≤ t)) &&
            sourceMatches (parseSourceParam src) e))) ∧
    ((fromDate = none ∨ toDate = none) →
      getMetrics db sel fromDate toDate src =
        Except.ok ((db.getCollection sel).filter
          (fun e => sourceMatches (parseSourceParam src) e))) := by
  constructor
  · intro f t hf ht
    subst hf
    subst ht
    rw [getMetrics_eq_find db sel (some f) (some t) src hsel]
    rfl
  · intro h
    rw [getMetrics_eq_find db sel fromDate toDate src hsel]
    have hnone : buildDateFilter fromDate toDate = none := by
      rcases h with h | h
      · rw [h]
        rfl
      · rw [h]
        cases fromDate <;> rfl
    have hfun : ∀ e ∈ db.getCollection sel,
        queryMatches { dateRange := buildDateFilter fromDate toDate, sourceCond := parseSourceParam src } e =
          sourceMatches (parseSourceParam src) e := by
      intro e _
      show (dateMatches (buildDateFilter fromDate toDate) e &&
          sourceMatches (parseSourceParam src) e) =
        sourceMatches (parseSourceParam src) e
      rw [hnone]
      rw [show dateMatches none e = true from rfl, Bool.true_and]
    rw [List.filter_congr hfun]

/-- Witness for `getMetrics_date_all_or_nothing`: on a concrete collection,
both bounds present restrict to the inclusive range, and a missing bound
leaves the dates unrestricted. -/
theorem getMetrics_date_all_or_nothing_witness :
    getMetrics { collections := [("HeartRate", [{ source := "W", date := 1, fields := [] }, { source := "W", date := 5, fields := [] }, { source := "A", date := 7, fields := [] }])] } "HeartRate" (some 2) (some 5) none =
      Except.ok [{ source := "W", date := 5, fields := [] }] :=
  ((getMetrics_date_all_or_nothing
      { collections := [("HeartRate", [{ source := "W", date := 1, fields := [] }, { source := "W", date := 5, fields := [] }, { source := "A", date := 7, fields := [] }])] }
      "HeartRate" (some 2) (some 5) none (by decide)).1 2 5 rfl rfl).trans
    (congrArg Except.ok (by decide))

/-- C5: querying a metric type that is not one of the statically known types
and whose store was never written yields the empty result, not an error. -/
theorem getMetrics_unknown_type_empty (db : DB) (sel : String)
    (fromDate toDate : Option Int) (src : Option String)
    (hsel : sel ≠ "")
    (h1 : sel ≠ MetricName.BLOOD_PRESSURE) (h2 : sel ≠ MetricName.HEART_RATE)
    (h3 : sel ≠ MetricName.SLEEP_ANALYSIS)
    (habsent : ∀ p ∈ db.collections, p.1 ≠ sel) :
    getMetrics db sel fromDate toDate src = Except.ok [] := by
  rw [getMetrics_eq_find db sel fromDate toDate src hsel]
  have hfind : db.collections.find? (fun p => p.1 == sel) = none := by
    rw [List.find?_eq_none]
    intro p hp
    simp [habsent p hp]
  have hcoll : db.getCollection sel = [] := by
    rw [DB.getCollection, hfind]
  rw [hcoll]
  rfl

/-- Witness for `getMetrics_unknown_type_empty`: a database holding only a
HeartRate collection answers a query for the never-written type "Posture"
with the empty list. -/
theorem getMetrics_unknown_type_empty_witness :
    getMetrics { collections := [("HeartRate", [{ source := "W", date := 1, fields := [] }])] } "Posture" none none none = Except.ok [] :=
  getMetrics_unknown_type_empty
    { collections := [("HeartRate", [{ source := "W", date := 1, fields := [] }])] }
    "Posture" none none none (by decide) (by decide) (by decide) (by decide) (by decide)

/-! ### C3, C9: the source filter -/

/-- C3 counterexample: for the parameter "A,$__all" the claim's discard rule
(split, trim, drop only the empty and whitespace-only entries) keeps the
entry "$__all" and, with two entries remaining, would match entities by
membership in ["A", "$__all"], accepting an entity whose source is
"$__all"; the controller additionally discards `$__all` entries, leaving
the single remaining source "A" matched exactly, so that entity is not
matched. -/
theorem source_filter_discard_counterexample :
    specDiscardRule "A,$__all" = ["A", "$__all"] ∧
    sourceMatches (some (SourceCond.inList (specDiscardRule "A,$__all")))
      { source := "$__all", date := 0, fields := [] } = true ∧
    parseSourceParam (some "A,$__all") = some (SourceCond.exact "A") ∧
    sourceMatches (parseSourceParam (some "A,$__all"))
      { source := "$__all", date := 0, fields := [] } = false := by
  decide

/-- C3 (amended): the whole-value sentinels `$__all` and `All` disable source
filtering; otherwise the parameter is split on commas, entries are trimmed,
the empty, whitespace-only, and `$__all` entries are discarded, a single
remaining source is matched exactly, several remaining sources are matched
by set membership, and when no entry remains no source condition is
applied. -/
theorem source_filter_semantics (s : String) (e : Entity)
    (h1 : s ≠ "") (h2 : s ≠ "$__all") (h3 : s ≠ "All") :
    (∀ x : Entity, sourceMatches (parseSourceParam (some "$__all")) x = true) ∧
    (∀ x : Entity, sourceMatches (parseSourceParam (some "All")) x = true) ∧
    (∀ t, t ∈ parsedSources s ↔
      (t ∈ (jsSplit s ',').map jsTrim ∧ t ≠ "" ∧ t ≠ "$__all")) ∧
    (∀ t, parsedSources s = [t] →
      parseSourceParam (some s) = some (SourceCond.exact t)) ∧
    (∀ t ts, parsedSources s = t :: ts → ts ≠ [] →
      parseSourceParam (some s) = some (SourceCond.inList (t :: ts))) ∧
    (sourceMatches (parseSourceParam (some s)) e = true ↔
      (parsedSources s = [] ∨ e.source ∈ parsedSources s)) := by
  have hguard : ¬(s = "" ∨ s = "$__all" ∨ s = "All") := by
    push_neg
    exact ⟨h1, h2, h3⟩
  have hps : parseSourceParam (some s) =
      (match parsedSources s with
       | [] => none
       | [t] => some (SourceCond.exact t)
       | t :: ts => some (SourceCond.inList (t :: ts))) := by
    simp only [parseSourceParam]
    rw [if_neg hguard]
  refine ⟨fun x => rfl, fun x => rfl, ?_, ?_, ?_, ?_⟩
  · intro t
    simp [parsedSources, List.mem_filter]
  · intro t ht
    rw [hps, ht]
  · intro t ts ht hts
    rw [hps, ht]
    cases ts with
    | nil => exact absurd rfl hts
    | cons a l => rfl
  · rw [hps]
    cases hsrc : parsedSources s with
    | nil =>
      simp [sourceMatches]
    | cons t ts =>
      cases ts with
      | nil =>
        simp [sourceMatches]
      | cons a l =>
        simp [sourceMatches, List.contains_eq_any_beq, List.any_eq_true]

/-- Witness for `source_filter_semantics`: a concrete parameter with two
surviving entries ("A" and "B"), a whitespace-only entry, and a `$__all`
entry resolves to the set-membership condition on ["A", "B"]. -/
theorem source_filter_semantics_witness :
    parseSourceParam (some "A,B, ,$__all") = some (SourceCond.inList ["A", "B"]) :=
  (source_filter_semantics "A,B, ,$__all" { source := "", date := 0, fields := [] }
      (by decide) (by decide) (by decide)).2.2.2.2.1 "A" ["B"] (by decide) (by decide)

/-- C9: inside a comma-separated source parameter only `$__all` entries are
discarded (beyond empty ones); an `All` entry is kept and matched literally,
so source = "All,Watch" filters to entities whose source is literally "All"
or "Watch", while `All` as the entire parameter value disables the filter
altogether. -/
theorem source_list_keeps_all_entry :
    parseSourceParam (some "All,Watch") = some (SourceCond.inList ["All", "Watch"]) ∧
    (∀ e : Entity, sourceMatches (parseSourceParam (some "All,Watch")) e =
      (e.source == "All" || e.source == "Watch")) ∧
    "All" ∈ parsedSources "All,Watch" ∧
    (∀ s : String, "$__all" ∉ parsedSources s) ∧
    parseSourceParam (some "All") = none ∧
    (∀ e : Entity, sourceMatches (parseSourceParam (some "All")) e = true) ∧
    parseSourceParam (some "$__all,Watch") = some (SourceCond.exact "Watch") := by
  refine ⟨by decide, ?_, by decide, ?_, by decide, fun e => rfl, by decide⟩
  · intro e
    rw [show parseSourceParam (some "All,Watch") =
      some (SourceCond.inList ["All", "Watch"]) from by decide]
    show (["All", "Watch"].contains e.source) = _
    simp only [List.contains_eq_any_beq, List.any_eq_true]
    by_cases hA : e.source = "All" <;> by_cases hW : e.source = "Watch" <;>
      simp [hA, hW]
  · intro s
    rw [parsedSources]
    intro hmem
    have := (List.mem_filter.mp hmem).2
    simp at this

/-! ### Order lemmas for the embedded string sort -/

theorem charListLe_total (a b : List Char) :
    charListLe a b = true ∨ charListLe b a = true := by
  induction a generalizing b with
  | nil => exact Or.inl rfl
  | cons x as ih =>
    cases b with
    | nil => exact Or.inr rfl
    | cons y bs =>
      by_cases h1 : x.val.toNat < y.val.toNat
      · exact Or.inl (by simp [charListLe, h1])
      · by_cases h2 : y.val.toNat < x.val.toNat
        · exact Or.inr (by simp [charListLe, h2])
        · rcases ih bs with h | h
          · exact Or.inl (by simp [charListLe, h1, h2, h])
          · exact Or.inr (by simp [charListLe, h1, h2, h])

theorem charListLe_trans (a b c : List Char) (hab : charListLe a b = true)
    (hbc : charListLe b c = true) : charListLe a c = true := by
  induction a generalizing b c with
  | nil => rfl
  | cons x as ih =>
    cases b with
    | nil => exact absurd hab (by simp [charListLe])
    | cons y bs =>
      cases c with
      | nil => exact absurd hbc (by simp [charListLe])
      | cons z cs =>
        simp only [charListLe] at hab hbc ⊢
        have hab' : x.val.toNat < y.val.toNat ∨
            (x.val.toNat = y.val.toNat ∧ charListLe as bs = true) := by
          by_cases h1 : x.val.toNat < y.val.toNat
          · exact Or.inl h1
          · by_cases h2 : y.val.toNat < x.val.toNat
            · simp [h1, h2] at hab
            · exact Or.inr ⟨by omega, by simpa [h1, h2] using hab⟩
        have hbc' : y.val.toNat < z.val.toNat ∨
            (y.val.toNat = z.val.toNat ∧ charListLe bs cs = true) := by
          by_cases h1 : y.val.toNat < z.val.toNat
          · exact Or.inl h1
          · by_cases h2 : z.val.toNat < y.val.toNat
            · simp [h1, h2] at hbc
            · exact Or.inr ⟨by omega, by simpa [h1, h2] using hbc⟩
        rcases hab' with h1 | ⟨h1, hr1⟩ <;> rcases hbc' with h2 | ⟨h2, hr2⟩
        · simp [show x.val.toNat < z.val.toNat by omega]
        · simp [show x.val.toNat < z.val.toNat by omega]
        · simp [show x.val.toNat < z.val.toNat by omega]
        · simp only [show ¬x.val.toNat < z.val.toNat by omega, if_false,
            show ¬z.val.toNat < x.val.toNat by omega]
          exact ih bs cs hr1 hr2

instance : IsTotal String (fun a b => strLe a b = true) :=
  ⟨fun a b => charListLe_total a.data b.data⟩

instance : IsTrans String (fun a b => strLe a b = true) :=
  ⟨fun a b c => charListLe_trans a.data b.data c.data⟩

theorem mem_sortStrings (l : List String) (x : String) :
    x ∈ sortStrings l ↔ x ∈ l :=
  List.mem_insertionSort _

theorem sorted_sortStrings (l : List String) :
    (sortStrings l).Sorted (fun a b => strLe a b = true) :=
  List.sorted_insertionSort _ l

theorem nodup_sortStrings (l : List String) (h : l.Nodup) :
    (sortStrings l).Nodup :=
  (List.perm_insertionSort _ l).nodup_iff.mpr h

/-! ### C7, C8: discovery service -/

/-- C7: `getSources` returns a sorted, duplicate-free list whose members are
exactly the source values occurring in the three statically known stores
(HeartRate, SleepAnalysis, BloodPressure); a source occurring only in other
(generic/dynamic) stores is therefore never in the result. -/
theorem getSources_known_stores_only (db : DB) :
    (getSources db).Sorted (fun a b => strLe a b = true) ∧
    (getSources db).Nodup ∧
    (∀ s, s ∈ getSources db ↔
      (s ∈ (db.getCollection MetricName.HEART_RATE).map Entity.source ∨
       s ∈ (db.getCollection MetricName.SLEEP_ANALYSIS).map Entity.source ∨
       s ∈ (db.getCollection MetricName.BLOOD_PRESSURE).map Entity.source)) := by
  refine ⟨sorted_sortStrings _, nodup_sortStrings _ (List.nodup_dedup _), ?_⟩
  intro s
  rw [getSources, mem_sortStrings, List.mem_dedup, List.mem_append, List.mem_append]
  simp [distinctSource, List.mem_dedup, or_assoc]

/-- C8: `getAvailableMetrics` returns a sorted, duplicate-free list whose
members are exactly the names of the existing collections that do not start
with the reserved `system.` prefix. -/
theorem getAvailableMetrics_spec (db : DB) (hwf : db.wf) :
    (getAvailableMetrics db).Sorted (fun a b => strLe a b = true) ∧
    (getAvailableMetrics db).Nodup ∧
    (∀ n, n ∈ getAvailableMetrics db ↔
      (n ∈ db.collections.map Prod.fst ∧ jsStartsWith n "system." = false)) := by
  refine ⟨sorted_sortStrings _, nodup_sortStrings _ (List.Nodup.filter _ hwf), ?_⟩
  intro n
  rw [getAvailableMetrics, mem_sortStrings, List.mem_filter]
  simp

/-- Witness for `getAvailableMetrics_spec`: on a concrete database with a
`system.views` collection and two data collections listed out of order, the
available metrics are the two data collections, sorted. -/
theorem getAvailableMetrics_spec_witness :
    DB.wf { collections := [("Walking", []), ("system.views", []), ("HeartRate", [])] } ∧
    ("HeartRate" ∈ getAvailableMetrics { collections := [("Walking", []), ("system.views", []), ("HeartRate", [])] } ↔
      ("HeartRate" ∈ ([("Walking", []), ("system.views", []), ("HeartRate", [])] : List (String × List Entity)).map Prod.fst ∧
        jsStartsWith "HeartRate" "system." = false)) :=
  ⟨by decide,
   (getAvailableMetrics_spec { collections := [("Walking", []), ("system.views", []), ("HeartRate", [])] }
      (by decide)).2.2 "HeartRate"⟩

/-! ### Remaining concrete witnesses -/

/-- Witness for `saveMetrics_no_data` at a concrete empty database. -/
theorem saveMetrics_no_data_witness :
    saveMetrics { data := { metrics := none } } { collections := [] } none =
      ({ metrics := some { success := true, message := none, error := some "No metrics data provided" } }, { collections := [] }) :=
  (saveMetrics_no_data { collections := [] } none).1

/-- Witness for `getSources_known_stores_only` at a concrete database holding
a known store and a dynamic store. -/
theorem getSources_known_stores_only_witness :
    (getSources { collections := [("HeartRate", [{ source := "W", date := 1, fields := [] }]), ("Posture", [{ source := "Z", date := 1, fields := [] }])] }).Sorted (fun a b => strLe a b = true) :=
  (getSources_known_stores_only { collections := [("HeartRate", [{ source := "W", date := 1, fields := [] }]), ("Posture", [{ source := "Z", date := 1, fields := [] }])] }).1

/-- Witness for `source_list_keeps_all_entry`: the `$__all` entry of a
concrete parameter is discarded. -/
theorem source_list_keeps_all_entry_witness :
    "$__all" ∉ parsedSources "A,$__all" :=
  source_list_keeps_all_entry.2.2.2.1 "A,$__all"

/-- Witness for `saveMetrics_success_counts_raw_records` on a concrete
one-record batch. -/
theorem saveMetrics_success_counts_raw_records_witness :
    (saveMetrics { data := { metrics := some [{ name := "HeartRate", samples := [{ source := some "W", date := some 1, fields := [("bpm", 60)] }] }] } } { collections := [] } none).1 =
      { metrics := some { success := true, message := some (toString ([{ name := "HeartRate", samples := [{ source := some "W", date := some 1, fields := [("bpm", 60)] }] }] : List HealthMetric).length ++ " metrics saved successfully"), error := none } } :=
  (saveMetrics_success_counts_raw_records { collections := [] }
    { name := "HeartRate", samples := [{ source := some "W", date := some 1, fields := [("bpm", 60)] }] } []).1
